import Mathlib

/-!
Shallow embedding of the `dep-graph` incremental-computation substrate
(`src/graph.rs` and `src/cell.rs`).

Machine integers (`usize`) are modelled as `Nat`; the only place where the
concrete width matters is the reserved dummy index `usize::MAX`, modelled as
`2 ^ 64 - 1`.  `HashSet`/`HashMap` are modelled as lists (membership sets and
association lists); the source only relies on membership / lookup semantics.
Panics (`panic!`, `assert!`, `unreachable!`, `debug_assert!`, `unwrap`) are
modelled as `Except Err` errors.
-/

/-- Model of `usize::MAX`, the value backing the reserved dummy index. -/
def usizeMax : Nat := 2 ^ 64 - 1

/-- Model of `DepNodeIndex` (graph.rs:30-33): a dense integer handle into node storage. -/
structure DepNodeIndex where
  index : Nat
deriving DecidableEq, Repr

/-- Model of `DepNodeIndex::dummy` (graph.rs:278-280). -/
def DepNodeIndex.dummy : DepNodeIndex := ⟨usizeMax⟩

/-- Model of `DepNodeIndex::is_dummy` (graph.rs:282-284). -/
def DepNodeIndex.is_dummy (v : DepNodeIndex) : Bool := v.index == usizeMax

/-- Model of `TaskStackEntry` (graph.rs:78-81): the predecessor accumulator of one
active task frame.  `predecessors` is the ordered list, `predecessor_set`
models the membership `HashSet`. -/
structure TaskStackEntry where
  predecessors : List DepNodeIndex
  predecessor_set : List DepNodeIndex
deriving DecidableEq, Repr

/-- Model of `DepNodeData` (graph.rs:67-70). -/
structure DepNodeData (N : Type) where
  opt_name : Option N
  predecessors : List DepNodeIndex
deriving DecidableEq, Repr

/-- Model of `DepGraphNodes` (graph.rs:47-65): node storage, the vector-interning set,
the task stack (top of stack = last element, matching `Vec` push/pop), the
anonymous-node map and the named-node map (association lists). -/
structure DepGraphNodes (N : Type) where
  node_data : List (DepNodeData N)
  predecessors : List (List DepNodeIndex)
  task_stack : List TaskStackEntry
  anon_node_map : List (List DepNodeIndex × DepNodeIndex)
  named_node_map : List (N × DepNodeIndex)
deriving DecidableEq, Repr

/-- Association-list lookup, modelling `HashMap::get`. -/
def lookupA {α β : Type} [DecidableEq α] : List (α × β) → α → Option β
  | [], _ => none
  | (k, v) :: rest, a => if k = a then some v else lookupA rest a

/-- The panics of the source, as error values: `pop_task`'s `unwrap` on an
empty stack, the named-node collision `assert!`, the `debug_assert!` in
`DepGraph::read`, the two `panic!`s of `borrow_mut`/`borrow`, the
`unreachable!` and the `assert_eq!` of `release_locks`, and an out-of-range
cell id (impossible in real runs, where ids come from allocation). -/
inductive Err where
  | emptyStack
  | nameCollision
  | dummyAssert
  | lockConflictWrite
  | lockConflictRead
  | releaseUnreachable
  | assertTaskMismatch
  | invalidCell
deriving DecidableEq, Repr

/-- Model of `DepGraphNodes::new` (graph.rs:213-221). -/
def DepGraphNodes.new {N : Type} : DepGraphNodes N :=
  { node_data := [], predecessors := [], task_stack := [],
    anon_node_map := [], named_node_map := [] }

/-- Model of `DepGraphNodes::push_task` (graph.rs:223-228). -/
def DepGraphNodes.push_task {N : Type} (s : DepGraphNodes N) : DepGraphNodes N :=
  { s with task_stack := s.task_stack ++ [⟨[], []⟩] }

/-- The body of `DepGraphNodes::read` acting on the top entry
(graph.rs:268-274): insert into the membership set; push onto the ordered
list only if the set did not already contain the index. -/
def TaskStackEntry.addRead (e : TaskStackEntry) (v : DepNodeIndex) : TaskStackEntry :=
  if v ∈ e.predecessor_set then e
  else { predecessors := e.predecessors ++ [v], predecessor_set := v :: e.predecessor_set }

/-- Model of `DepGraphNodes::read` (graph.rs:268-274): update the topmost task frame
if one exists, otherwise do nothing. -/
def DepGraphNodes.read {N : Type} (s : DepGraphNodes N) (v : DepNodeIndex) :
    DepGraphNodes N :=
  match s.task_stack.getLast? with
  | none => s
  | some top => { s with task_stack := s.task_stack.dropLast ++ [top.addRead v] }

/-- Model of `DepGraphNodes::pop_task` (graph.rs:233-266): pop the top frame
(`unwrap` panic if none), canonicalize the predecessor vector in the
interning set, for an anonymous task consult `anon_node_map`, otherwise
allocate a fresh node; a named node must not already exist.  Note the source
never inserts into `anon_node_map`. -/
def DepGraphNodes.pop_task {N : Type} [DecidableEq N] (s : DepGraphNodes N)
    (opt_name : Option N) : Except Err (DepNodeIndex × DepGraphNodes N) :=
  match s.task_stack.getLast? with
  | none => .error .emptyStack
  | some entry =>
    let preds := entry.predecessors
    let predSet := if preds ∈ s.predecessors then s.predecessors else preds :: s.predecessors
    let s₁ : DepGraphNodes N :=
      { s with task_stack := s.task_stack.dropLast, predecessors := predSet }
    match opt_name with
    | none =>
      match lookupA s₁.anon_node_map preds with
      | some idx => .ok (idx, s₁)
      | none =>
        let idx : DepNodeIndex := ⟨s₁.node_data.length⟩
        .ok (idx, { s₁ with node_data := s₁.node_data ++ [⟨none, preds⟩] })
    | some n =>
      let idx : DepNodeIndex := ⟨s₁.node_data.length⟩
      if (lookupA s₁.named_node_map n).isSome then .error .nameCollision
      else .ok (idx, { s₁ with
        named_node_map := (n, idx) :: s₁.named_node_map,
        node_data := s₁.node_data ++ [⟨some n, preds⟩] })

/-- Model of `DepGraph::read` (graph.rs:181-188): when enabled, record the read in
the node state; when disabled, `debug_assert!` that the index is the dummy. -/
def readG {N : Type} (enabled : Bool) (v : DepNodeIndex) (s : DepGraphNodes N) :
    Except Err (DepGraphNodes N) :=
  if enabled then .ok (s.read v)
  else if v.is_dummy then .ok s else .error .dummyAssert

/-- Model of `DepGraph::with_task_internal` (graph.rs:163-179), with the user task
function modelled as a state transformer on the shared node state (the Rust
closure reaches the nodes through `Rc<RefCell<_>>`).  Disabled: run the body
and pair its result with the dummy index, never touching push/pop.  Enabled:
push a frame, run the body, pop the frame. -/
def with_task_internal {N R : Type} [DecidableEq N] (enabled : Bool) (key : Option N)
    (body : DepGraphNodes N → Except Err (R × DepGraphNodes N))
    (s : DepGraphNodes N) : Except Err ((R × DepNodeIndex) × DepGraphNodes N) :=
  if enabled then
    match body s.push_task with
    | .error e => .error e
    | .ok (r, s₂) =>
      match s₂.pop_task key with
      | .error e => .error e
      | .ok (i, s₃) => .ok ((r, i), s₃)
  else
    match body s with
    | .error e => .error e
    | .ok (r, s₂) => .ok ((r, DepNodeIndex.dummy), s₂)

/-- Model of `DepGraph::with_ignore` (graph.rs:104-115): disabled, just run the body;
enabled, push a frame, run the body, pop the frame and discard the index. -/
def with_ignore {N R : Type} [DecidableEq N] (enabled : Bool)
    (body : DepGraphNodes N → Except Err (R × DepGraphNodes N))
    (s : DepGraphNodes N) : Except Err (R × DepGraphNodes N) :=
  if enabled then
    match body s.push_task with
    | .error e => .error e
    | .ok (r, s₂) =>
      match s₂.pop_task none with
      | .error e => .error e
      | .ok (_, s₃) => .ok (r, s₃)
  else
    body s

/-- Syntactic programs over the public graph API, used to quantify over
"task bodies composed of graph operations".  `taskOp none` is
`with_anon_task`, `taskOp (some n)` is `with_task` (both are
`with_task_internal`, graph.rs:144-161). -/
inductive GraphOp (N : Type) where
  | skip
  | readOp (v : DepNodeIndex)
  | seq (a b : GraphOp N)
  | taskOp (key : Option N) (body : GraphOp N)
  | ignoreOp (body : GraphOp N)
deriving DecidableEq, Repr

/-- Interpreter for `GraphOp` programs against the source operations.  It
returns the state together with the list of `DepNodeIndex` values produced
by the `taskOp`s that ran.  The `taskOp` and `ignoreOp` cases inline
`with_task_internal` and `with_ignore` respectively. -/
def runOp {N : Type} [DecidableEq N] (enabled : Bool) :
    GraphOp N → DepGraphNodes N → Except Err (List DepNodeIndex × DepGraphNodes N)
  | .skip, s => .ok ([], s)
  | .readOp v, s =>
    match readG enabled v s with
    | .error e => .error e
    | .ok s' => .ok ([], s')
  | .seq a b, s =>
    match runOp enabled a s with
    | .error e => .error e
    | .ok (xs, s') =>
      match runOp enabled b s' with
      | .error e => .error e
      | .ok (ys, s'') => .ok (xs ++ ys, s'')
  | .taskOp key body, s =>
    if enabled then
      match runOp enabled body s.push_task with
      | .error e => .error e
      | .ok (xs, s₂) =>
        match s₂.pop_task key with
        | .error e => .error e
        | .ok (i, s₃) => .ok (xs ++ [i], s₃)
    else
      match runOp enabled body s with
      | .error e => .error e
      | .ok (xs, s₂) => .ok (xs ++ [DepNodeIndex.dummy], s₂)
  | .ignoreOp body, s =>
    if enabled then
      match runOp enabled body s.push_task with
      | .error e => .error e
      | .ok (xs, s₂) =>
        match s₂.pop_task none with
        | .error e => .error e
        | .ok (_, s₃) => .ok (xs, s₃)
    else
      match runOp enabled body s with
      | .error e => .error e
      | .ok (xs, s₂) => .ok (xs, s₂)

/-! ## Tracked cells (`src/cell.rs`) -/

/-- Model of `TaskId` (cell.rs:42-43). -/
structure TaskId where
  id : Nat
deriving DecidableEq, Repr

/-- Model of `State` (cell.rs:35-40): the lock state of a `DepCell`. -/
inductive State where
  | Unlocked (producer : DepNodeIndex)
  | ReadLocked (holder : TaskId)
  | WriteLocked (holder : TaskId)
deriving DecidableEq, Repr

/-- The state transition and read edge of `Task::borrow_mut`
(cell.rs:94-109): the first `match` panics on any locked state (held by any
task, including the caller); the second `match` installs
`WriteLocked(self.task_id)` and registers `read(u)` when the cell was
`Unlocked(u)`.  The returned `Option DepNodeIndex` is the read edge passed
to `DepGraph::read`. -/
def borrow_mut_step (tid : TaskId) : State → Except Err (State × Option DepNodeIndex)
  | .Unlocked u => .ok (.WriteLocked tid, some u)
  | .ReadLocked _ => .error .lockConflictWrite
  | .WriteLocked _ => .error .lockConflictWrite

/-- The state transition and read edge of `Task::borrow` (cell.rs:111-131):
`Unlocked(u)` becomes `ReadLocked(self.task_id)` with a `read(u)` edge;
`ReadLocked` by the same task is permitted and registers no edge;
`ReadLocked` by another task or `WriteLocked` by anyone panics. -/
def borrow_step (tid : TaskId) : State → Except Err (State × Option DepNodeIndex)
  | .Unlocked u => .ok (.ReadLocked tid, some u)
  | .ReadLocked t => if t = tid then .ok (.ReadLocked tid, none) else .error .lockConflictRead
  | .WriteLocked _ => .error .lockConflictRead

/-- One iteration of `Task::release_locks` (cell.rs:136-145) on a single
cell state: `Unlocked` is `unreachable!`; `ReadLocked` is only asserted to
be held by this task (the source writes no new state; returning the old
state is the same cell value); `WriteLocked` is asserted and then set to
`Unlocked(node)`. -/
def release_one (tid : TaskId) (node : DepNodeIndex) : State → Except Err State
  | .Unlocked _ => .error .releaseUnreachable
  | .ReadLocked t => if t = tid then .ok (.ReadLocked t) else .error .assertTaskMismatch
  | .WriteLocked t => if t = tid then .ok (.Unlocked node) else .error .assertTaskMismatch

/-- Model of `Task::release_locks` (cell.rs:133-147) over a heap of cells: `locked`
is the task's locked-cell list (cell ids into the heap, duplicates possible
since `borrow`/`borrow_mut` push unconditionally), processed in order. -/
def release_locks_go (tid : TaskId) (node : DepNodeIndex) :
    List Nat → List State → Except Err (List State)
  | [], cells => .ok cells
  | cid :: rest, cells =>
    match cells[cid]? with
    | none => .error .invalidCell
    | some st =>
      match release_one tid node st with
      | .error e => .error e
      | .ok st' => release_locks_go tid node rest (cells.set cid st')

/-- The combined mutable state a `cell_task` body can reach: the shared
graph node state and the heap of tracked-cell lock states. -/
structure CellSys (N : Type) where
  graph : DepGraphNodes N
  cells : List State
deriving DecidableEq, Repr

/-- Model of `DepGraph::cell_task` (cell.rs:54-69): allocate the task identity
(hard-coded `TaskId(0)`, cell.rs:62), `push_task` (gated on `enabled`,
graph.rs:194-198), run the user task function with the task id and an empty
locked list, `pop_task(None)` (gated on `enabled`, returning the dummy index
when disabled, graph.rs:201-207), then release the locks the body
accumulated, stamping write-locked cells with the produced node. -/
def cell_task {N R : Type} [DecidableEq N] (enabled : Bool)
    (body : TaskId → CellSys N → List Nat → Except Err (R × CellSys N × List Nat))
    (sys : CellSys N) : Except Err (R × CellSys N) :=
  let task_id : TaskId := ⟨0⟩
  let sys₁ : CellSys N :=
    { sys with graph := if enabled then sys.graph.push_task else sys.graph }
  match body task_id sys₁ [] with
  | .error e => .error e
  | .ok (r, sys₂, locked) =>
    match (if enabled then sys₂.graph.pop_task none
           else .ok (DepNodeIndex.dummy, sys₂.graph)) with
    | .error e => .error e
    | .ok (node, g₃) =>
      match release_locks_go task_id node locked sys₂.cells with
      | .error e => .error e
      | .ok cells' => .ok (r, { graph := g₃, cells := cells' })

/-! ## Derived functions used to state the claims -/

/-- Iterated `read` calls against one task frame (the per-frame part of
`DepGraphNodes::read`, graph.rs:268-274). -/
def readAll : TaskStackEntry → List DepNodeIndex → TaskStackEntry
  | e, [] => e
  | e, v :: vs => readAll (e.addRead v) vs

/-- Spec-side refinement target, following the spec's words: "an ordered,
duplicate-free sequence of DepNodeIndex, recorded in first-access order".
Keeps the first occurrence of each index not already in `seen`. -/
def specFirstReads : List DepNodeIndex → List DepNodeIndex → List DepNodeIndex
  | _, [] => []
  | seen, v :: vs =>
    if v ∈ seen then specFirstReads seen vs
    else v :: specFirstReads (v :: seen) vs

/-! ## Helper lemmas -/

theorem readAll_predecessors (vs : List DepNodeIndex) :
    ∀ e : TaskStackEntry,
      (readAll e vs).predecessors = e.predecessors ++ specFirstReads e.predecessor_set vs := by
  induction vs with
  | nil => intro e; simp [readAll, specFirstReads]
  | cons v vs ih =>
    intro e
    by_cases hv : v ∈ e.predecessor_set
    · simp [readAll, specFirstReads, TaskStackEntry.addRead, hv, ih]
    · simp only [readAll, specFirstReads, TaskStackEntry.addRead, hv, if_neg, if_false]
      rw [ih]
      simp

theorem specFirstReads_count (x : DepNodeIndex) (vs : List DepNodeIndex) :
    ∀ seen : List DepNodeIndex,
      (specFirstReads seen vs).count x =
        if x ∈ seen then 0 else if x ∈ vs then 1 else 0 := by
  induction vs with
  | nil => intro seen; simp [specFirstReads]
  | cons v vs ih =>
    intro seen
    by_cases hv : v ∈ seen
    · rw [specFirstReads, if_pos hv, ih]
      by_cases hx : x ∈ seen
      · simp [hx]
      · have hxv : x ≠ v := fun he => hx (he ▸ hv)
        simp [hx, hxv]
    · rw [specFirstReads, if_neg hv, List.count_cons, ih]
      by_cases hxv : x = v
      · subst hxv
        simp [hv]
      · have hxv' : v ≠ x := fun he => hxv he.symm
        by_cases hx : x ∈ seen
        · simp [hx, hxv', List.mem_cons, hxv]
        · simp [hx, hxv', List.mem_cons, hxv]

/-! ## Claims -/

/-- C5: within one task frame, calling `read x` any number of times yields a
predecessor list containing `x` exactly once, and the list preserves
first-access order (it equals the first-occurrence subsequence of the read
sequence, not a sorted list).  `vs` is the sequence of `read` calls made
while the frame (started empty by `push_task`) is on top. -/
theorem c5_read_dedup_first_access_order (vs : List DepNodeIndex) (x : DepNodeIndex) :
    (readAll ⟨[], []⟩ vs).predecessors = specFirstReads [] vs ∧
    (x ∈ vs → (readAll ⟨[], []⟩ vs).predecessors.count x = 1) ∧
    (x ∉ vs → (readAll ⟨[], []⟩ vs).predecessors.count x = 0) := by
  have h1 : (readAll ⟨[], []⟩ vs).predecessors = specFirstReads [] vs := by
    rw [readAll_predecessors]
    simp
  refine ⟨h1, ?_, ?_⟩ <;> intro hx <;> rw [h1, specFirstReads_count] <;> simp [hx]

/-- Witness for C5 at the concrete read sequence `[1, 2, 1]`. -/
theorem c5_read_dedup_first_access_order_witness :
    (⟨1⟩ : DepNodeIndex) ∈ [(⟨1⟩ : DepNodeIndex), ⟨2⟩, ⟨1⟩] ∧
    (readAll ⟨[], []⟩ [⟨1⟩, ⟨2⟩, ⟨1⟩]).predecessors.count ⟨1⟩ = 1 :=
  ⟨by decide, (c5_read_dedup_first_access_order [⟨1⟩, ⟨2⟩, ⟨1⟩] ⟨1⟩).2.1 (by decide)⟩

/-- C6: `borrow_mut` on a cell that is read- or write-locked by any task
(including the caller, `t = tid` being allowed below) aborts; `borrow` on a
cell read-locked by the caller succeeds with no new read edge; `borrow` on a
write-locked cell, or one read-locked by a different task, aborts. -/
theorem c6_lock_exclusivity (tid t : TaskId) :
    borrow_mut_step tid (.ReadLocked t) = .error .lockConflictWrite ∧
    borrow_mut_step tid (.WriteLocked t) = .error .lockConflictWrite ∧
    borrow_step tid (.ReadLocked tid) = .ok (.ReadLocked tid, none) ∧
    borrow_step tid (.WriteLocked t) = .error .lockConflictRead ∧
    (t ≠ tid → borrow_step tid (.ReadLocked t) = .error .lockConflictRead) := by
  refine ⟨rfl, rfl, ?_, rfl, ?_⟩
  · simp [borrow_step]
  · intro h
    simp [borrow_step, h]

/-- Witness for C6 with caller task 0 and other task 1. -/
theorem c6_lock_exclusivity_witness :
    (⟨1⟩ : TaskId) ≠ ⟨0⟩ ∧
    borrow_step ⟨0⟩ (.ReadLocked ⟨1⟩) = .error .lockConflictRead :=
  ⟨by decide, (c6_lock_exclusivity ⟨0⟩ ⟨1⟩).2.2.2.2 (by decide)⟩

/-- C1 counterexample: a task whose locked-cell list holds one read-locked
cell ends producing node 7; `release_locks` succeeds but leaves the cell
`ReadLocked`, not `Unlocked(7)` — the source (cell.rs:138-140) only asserts
the holder for a read-locked cell and writes `Unlocked(node)` solely in the
`WriteLocked` arm (cell.rs:141-144). -/
theorem c1_release_counterexample :
    release_locks_go ⟨0⟩ ⟨7⟩ [0] [State.ReadLocked ⟨0⟩] = .ok [State.ReadLocked ⟨0⟩] ∧
    State.ReadLocked ⟨0⟩ ≠ State.Unlocked ⟨7⟩ :=
  ⟨rfl, by decide⟩

/-- C1 amended: when a task ends, the release step asserts every cell in the
locked list is still held by this task; a write-locked cell is set to
`Unlocked(n)` with `n` the produced node, while a read-locked cell is left
read-locked by the task; cells outside the locked list are untouched. -/
theorem c1_release_amended (tid : TaskId) (node : DepNodeIndex) :
    ∀ (locked : List Nat) (cells cells' : List State),
      release_locks_go tid node locked cells = .ok cells' →
      (∀ i, i ∉ locked → cells'[i]? = cells[i]?) ∧
      (∀ i, i ∈ locked →
        (cells[i]? = some (.ReadLocked tid) ∧ cells'[i]? = some (.ReadLocked tid)) ∨
        (cells[i]? = some (.WriteLocked tid) ∧ cells'[i]? = some (.Unlocked node))) := by
  intro locked
  induction locked with
  | nil =>
    intro cells cells' h
    simp only [release_locks_go] at h
    cases h
    exact ⟨fun i _ => rfl, fun i hi => absurd hi (List.not_mem_nil i)⟩
  | cons cid rest ih =>
    intro cells cells' h
    simp only [release_locks_go] at h
    cases hc : cells[cid]? with
    | none => rw [hc] at h; cases h
    | some st =>
      rw [hc] at h
      have hlen : cid < cells.length := by
        by_contra hge
        rw [List.getElem?_eq_none_iff.mpr (by omega)] at hc
        cases hc
      cases st with
      | Unlocked u => simp [release_one] at h
      | ReadLocked t =>
        by_cases ht : t = tid
        · subst ht
          simp only [release_one, if_pos rfl] at h
          obtain ⟨h1, h2⟩ := ih (cells.set cid (.ReadLocked t)) cells' h
          have hset : (cells.set cid (State.ReadLocked t))[cid]? = some (.ReadLocked t) :=
            List.getElem?_set_self hlen
          constructor
          · intro i hi
            have hic : i ≠ cid := fun he => hi (he ▸ List.mem_cons_self cid rest)
            have hir : i ∉ rest := fun hr => hi (List.mem_cons_of_mem cid hr)
            rw [h1 i hir, List.getElem?_set_ne (Ne.symm hic)]
          · intro i hi
            by_cases hic : i = cid
            · subst hic
              by_cases hir : i ∈ rest
              · rcases h2 i hir with ⟨ha, hb⟩ | ⟨ha, hb⟩
                · exact Or.inl ⟨hc, hb⟩
                · rw [hset] at ha; cases ha
              · exact Or.inl ⟨hc, by rw [h1 i hir, hset]⟩
            · have hir : i ∈ rest := by
                rcases List.mem_cons.mp hi with he | hr
                · exact absurd he hic
                · exact hr
              have hne : (cells.set cid (State.ReadLocked t))[i]? = cells[i]? :=
                List.getElem?_set_ne (fun he => hic he.symm)
              rcases h2 i hir with ⟨ha, hb⟩ | ⟨ha, hb⟩
              · exact Or.inl ⟨by rw [← hne, ha], hb⟩
              · exact Or.inr ⟨by rw [← hne, ha], hb⟩
        · simp [release_one, ht] at h
      | WriteLocked t =>
        by_cases ht : t = tid
        · subst ht
          simp only [release_one, if_pos rfl] at h
          obtain ⟨h1, h2⟩ := ih (cells.set cid (.Unlocked node)) cells' h
          have hset : (cells.set cid (State.Unlocked node))[cid]? = some (.Unlocked node) :=
            List.getElem?_set_self hlen
          constructor
          · intro i hi
            have hic : i ≠ cid := fun he => hi (he ▸ List.mem_cons_self cid rest)
            have hir : i ∉ rest := fun hr => hi (List.mem_cons_of_mem cid hr)
            rw [h1 i hir, List.getElem?_set_ne (Ne.symm hic)]
          · intro i hi
            by_cases hic : i = cid
            · subst hic
              by_cases hir : i ∈ rest
              · rcases h2 i hir with ⟨ha, _⟩ | ⟨ha, _⟩ <;> rw [hset] at ha <;> cases ha
              · exact Or.inr ⟨hc, by rw [h1 i hir, hset]⟩
            · have hir : i ∈ rest := by
                rcases List.mem_cons.mp hi with he | hr
                · exact absurd he hic
                · exact hr
              have hne : (cells.set cid (State.Unlocked node))[i]? = cells[i]? :=
                List.getElem?_set_ne (fun he => hic he.symm)
              rcases h2 i hir with ⟨ha, hb⟩ | ⟨ha, hb⟩
              · exact Or.inl ⟨by rw [← hne, ha], hb⟩
              · exact Or.inr ⟨by rw [← hne, ha], hb⟩
        · simp [release_one, ht] at h

/-- Witness for the amended C1: a read-locked and a write-locked cell, both
held by task 0; release with produced node 3 keeps the first read-locked and
unlocks the second to `Unlocked(3)`. -/
theorem c1_release_amended_witness :
    (release_locks_go ⟨0⟩ ⟨3⟩ [0, 1] [State.ReadLocked ⟨0⟩, State.WriteLocked ⟨0⟩] =
       .ok [State.ReadLocked ⟨0⟩, State.Unlocked ⟨3⟩]) ∧
    (([State.ReadLocked ⟨0⟩, State.WriteLocked ⟨0⟩] : List State)[1]? =
        some (State.WriteLocked ⟨0⟩) ∧
     ([State.ReadLocked ⟨0⟩, State.Unlocked ⟨3⟩] : List State)[1]? =
        some (State.Unlocked ⟨3⟩)) :=
  ⟨rfl,
    ((c1_release_amended ⟨0⟩ ⟨3⟩ [0, 1]
        [State.ReadLocked ⟨0⟩, State.WriteLocked ⟨0⟩]
        [State.ReadLocked ⟨0⟩, State.Unlocked ⟨3⟩] rfl).2 1
        (by decide)).resolve_left (by decide)⟩

/-- C3 counterexample: on an enabled graph with one active frame, `read` of
the reserved dummy index does not abort — it succeeds and silently records
the dummy index as a predecessor of the frame.  (The `debug_assert!` of
graph.rs:186 sits on the disabled branch, not the enabled one.) -/
theorem c3_dummy_read_counterexample :
    readG (N := Nat) true DepNodeIndex.dummy DepGraphNodes.new.push_task =
      .ok { node_data := [], predecessors := [], task_stack := [⟨[DepNodeIndex.dummy], [DepNodeIndex.dummy]⟩],
            anon_node_map := [], named_node_map := [] } := by
  rfl

/-- C3 amended: on an enabled graph `read` records any index — the dummy
included — with no check; the assertion actually guards the disabled branch,
rejecting a non-dummy index passed to `read` while the graph is disabled
(and accepting the dummy as a no-op). -/
theorem c3_dummy_assert_amended {N : Type} [DecidableEq N] (v : DepNodeIndex)
    (s : DepGraphNodes N) :
    readG true v s = .ok (s.read v) ∧
    (v.is_dummy = false → readG false v s = .error .dummyAssert) ∧
    (v.is_dummy = true → readG false v s = .ok s) := by
  refine ⟨rfl, ?_, ?_⟩ <;> intro h <;> simp [readG, h]

/-- Witness for the amended C3: index 3 is not the dummy, and reading it on
a disabled graph trips the assertion. -/
theorem c3_dummy_assert_amended_witness :
    DepNodeIndex.is_dummy ⟨3⟩ = false ∧
    readG (N := Nat) false ⟨3⟩ DepGraphNodes.new = .error .dummyAssert :=
  ⟨by decide, (c3_dummy_assert_amended ⟨3⟩ DepGraphNodes.new).2.1 (by decide)⟩

/-- C4: evaluating `pop_task` on the failing input.  Two consecutive
anonymous tasks whose frames record the identical (empty) predecessor list
return the distinct indices 0 and 1, the second one allocates a second node,
and `anon_node_map` is still empty afterwards: `pop_task` (graph.rs:233-266)
never inserts into the table its own field documentation (graph.rs:57-61)
says is used "so we can re-use indices", so the lookup at graph.rs:251 can
never succeed. -/
theorem c4_anon_map_never_populated :
    runOp (N := Nat) true (.seq (.taskOp none .skip) (.taskOp none .skip))
        DepGraphNodes.new =
      .ok ([⟨0⟩, ⟨1⟩],
        { node_data := [⟨none, []⟩, ⟨none, []⟩], predecessors := [[]],
          task_stack := [], anon_node_map := [], named_node_map := [] }) := by
  rfl

/-- Probe body returning the `TaskId` a `cell_task` hands to its task
function. -/
def c2ProbeInner : TaskId → CellSys Nat → List Nat →
    Except Err (TaskId × CellSys Nat × List Nat) :=
  fun tid sys locked => .ok (tid, sys, locked)

/-- Probe body that starts a nested `cell_task` and returns the pair of task
identities observed by the outer and the inner invocation. -/
def c2ProbeOuter : TaskId → CellSys Nat → List Nat →
    Except Err ((TaskId × TaskId) × CellSys Nat × List Nat) :=
  fun tid sys locked =>
    match cell_task true c2ProbeInner sys with
    | .error e => .error e
    | .ok (tidInner, sys') => .ok ((tid, tidInner), sys', locked)

/-- C2: evaluating the code at the failing input.  An outer `cell_task` and
the `cell_task` nested inside it — two distinct task invocations — both
observe the task identity `TaskId 0` (cell.rs:62 hard-codes
`TaskId(0) // TODO fix this`), so the two distinct tasks compare equal as
lock holders, contradicting the required uniqueness. -/
theorem c2_task_id_not_unique :
    (cell_task true c2ProbeOuter ⟨DepGraphNodes.new, []⟩).map (fun p => p.1) =
      .ok (⟨0⟩, ⟨0⟩) := by
  rfl

theorem push_task_stack {N : Type} (s : DepGraphNodes N) :
    (s.push_task).task_stack = s.task_stack ++ [⟨[], []⟩] := rfl

theorem read_stack {N : Type} (s : DepGraphNodes N) (v : DepNodeIndex) :
    (s.read v).task_stack.length = s.task_stack.length ∧
    (s.read v).task_stack.dropLast = s.task_stack.dropLast := by
  simp only [DepGraphNodes.read]
  cases hl : s.task_stack.getLast? with
  | none => exact ⟨rfl, rfl⟩
  | some top =>
    have hne : s.task_stack ≠ [] := by
      intro he
      rw [he] at hl
      cases hl
    have hpos : 0 < s.task_stack.length := List.length_pos.mpr hne
    constructor
    · simp only [List.length_append, List.length_dropLast, List.length_cons,
        List.length_nil]
      omega
    · simp

theorem pop_task_stack {N : Type} [DecidableEq N] (s : DepGraphNodes N) (k : Option N)
    (i : DepNodeIndex) (s' : DepGraphNodes N) (h : s.pop_task k = .ok (i, s')) :
    s'.task_stack = s.task_stack.dropLast := by
  simp only [DepGraphNodes.pop_task] at h
  cases hl : s.task_stack.getLast? with
  | none => simp only [hl] at h; cases h
  | some entry =>
    simp only [hl] at h
    cases k with
    | none =>
      cases hm : lookupA s.anon_node_map entry.predecessors with
      | some idx => simp only [hm] at h; cases h; rfl
      | none => simp only [hm] at h; cases h; rfl
    | some n =>
      by_cases hn : (lookupA s.named_node_map n).isSome
      · simp only [hn, if_true] at h; cases h
      · simp only [hn, if_false, Bool.false_eq_true] at h
        cases h
        rfl

theorem runOp_stack {N : Type} [DecidableEq N] (prog : GraphOp N) :
    ∀ (s : DepGraphNodes N) (xs : List DepNodeIndex) (s' : DepGraphNodes N),
      runOp true prog s = .ok (xs, s') →
      s'.task_stack.length = s.task_stack.length ∧
      s'.task_stack.dropLast = s.task_stack.dropLast := by
  induction prog with
  | skip =>
    intro s xs s' h
    cases h
    exact ⟨rfl, rfl⟩
  | readOp v =>
    intro s xs s' h
    simp only [runOp, readG, if_true] at h
    cases h
    exact read_stack s v
  | seq a b iha ihb =>
    intro s xs s' h
    simp only [runOp] at h
    cases ha : runOp true a s with
    | error e => simp only [ha] at h; cases h
    | ok p =>
      obtain ⟨xs₁, s₁⟩ := p
      simp only [ha] at h
      cases hb : runOp true b s₁ with
      | error e => simp only [hb] at h; cases h
      | ok q =>
        obtain ⟨xs₂, s₂⟩ := q
        simp only [hb] at h
        cases h
        obtain ⟨l1, d1⟩ := iha s _ _ ha
        obtain ⟨l2, d2⟩ := ihb s₁ _ _ hb
        exact ⟨l2.trans l1, d2.trans d1⟩
  | taskOp key body ihb =>
    intro s xs s' h
    simp only [runOp, if_true] at h
    cases hb : runOp true body s.push_task with
    | error e => simp only [hb] at h; cases h
    | ok p =>
      obtain ⟨xs₀, s₂⟩ := p
      simp only [hb] at h
      cases hp : s₂.pop_task key with
      | error e => simp only [hp] at h; cases h
      | ok q =>
        obtain ⟨i, s₃⟩ := q
        simp only [hp] at h
        cases h
        obtain ⟨lB, dB⟩ := ihb s.push_task _ _ hb
        have h3 := pop_task_stack s₂ key i s' hp
        rw [push_task_stack] at lB dB
        have hstack : s'.task_stack = s.task_stack := by
          rw [h3, dB]
          simp
        rw [hstack]
        exact ⟨rfl, rfl⟩
  | ignoreOp body ihb =>
    intro s xs s' h
    simp only [runOp, if_true] at h
    cases hb : runOp true body s.push_task with
    | error e => simp only [hb] at h; cases h
    | ok p =>
      obtain ⟨xs₀, s₂⟩ := p
      simp only [hb] at h
      cases hp : s₂.pop_task none with
      | error e => simp only [hp] at h; cases h
      | ok q =>
        obtain ⟨i, s₃⟩ := q
        simp only [hp] at h
        cases h
        obtain ⟨lB, dB⟩ := ihb s.push_task _ _ hb
        have h3 := pop_task_stack s₂ none i s' hp
        rw [push_task_stack] at lB dB
        have hstack : s'.task_stack = s.task_stack := by
          rw [h3, dB]
          simp
        rw [hstack]
        exact ⟨rfl, rfl⟩

/-- C7: closing a named task whose name is already in the named-node table
is a fatal `NameCollision` error; a named task whose name is fresh always
allocates a new node (index `node_data.length`, even if its predecessor list
matches an existing anonymous node) and records the name-to-index mapping. -/
theorem c7_named_uniqueness {N : Type} [DecidableEq N] (s : DepGraphNodes N)
    (st : List TaskStackEntry) (entry : TaskStackEntry) (n : N)
    (h : s.task_stack = st ++ [entry]) :
    ((lookupA s.named_node_map n).isSome = true →
        s.pop_task (some n) = .error .nameCollision) ∧
    (lookupA s.named_node_map n = none →
        (s.pop_task (some n)).map (fun p => p.1) = .ok ⟨s.node_data.length⟩ ∧
        (s.pop_task (some n)).map (fun p => lookupA p.2.named_node_map n) =
          .ok (some ⟨s.node_data.length⟩) ∧
        (s.pop_task (some n)).map (fun p => p.2.node_data) =
          .ok (s.node_data ++ [⟨some n, entry.predecessors⟩])) := by
  have hl : s.task_stack.getLast? = some entry := by
    rw [h]
    exact List.getLast?_concat st
  constructor
  · intro hn
    simp only [DepGraphNodes.pop_task, hl, hn, if_true]
  · intro hn
    have hn' : (lookupA s.named_node_map n).isSome = false := by
      rw [hn]
      rfl
    simp [DepGraphNodes.pop_task, hl, hn', Except.map, lookupA]

/-- Witness for C7: popping a named task from a fresh single-frame graph
whose named table is empty allocates node 0 and records the name. -/
theorem c7_named_uniqueness_witness :
    lookupA (DepGraphNodes.new (N := Nat)).push_task.named_node_map 5 = none ∧
    ((DepGraphNodes.new (N := Nat)).push_task.pop_task (some 5)).map (fun p => p.1) =
      .ok ⟨0⟩ :=
  ⟨rfl, ((c7_named_uniqueness DepGraphNodes.new.push_task [] ⟨[], []⟩ 5 rfl).2 rfl).1⟩

/-- C8: with `enabled = false`, any program composed of `withTask`,
`withAnonTask`, `withIgnore` and `read` calls that runs without tripping the
disabled-path assertion leaves the entire node state (node storage,
interning tables, task stack) unchanged and produces only the dummy index;
and `with_task_internal` still runs the task body and returns its result,
paired with the dummy index. -/
theorem c8_disabled_fast_path {N R : Type} [DecidableEq N] :
    (∀ (prog : GraphOp N) (s : DepGraphNodes N) (xs : List DepNodeIndex)
        (s' : DepGraphNodes N),
        runOp false prog s = .ok (xs, s') →
        s' = s ∧ ∀ i ∈ xs, i = DepNodeIndex.dummy) ∧
    (∀ (key : Option N) (body : DepGraphNodes N → Except Err (R × DepGraphNodes N))
        (s : DepGraphNodes N),
        with_task_internal false key body s =
          (body s).map (fun p => ((p.1, DepNodeIndex.dummy), p.2))) := by
  constructor
  · intro prog
    induction prog with
    | skip =>
      intro s xs s' h
      cases h
      exact ⟨rfl, by simp⟩
    | readOp v =>
      intro s xs s' h
      simp only [runOp, readG, Bool.false_eq_true, if_false] at h
      by_cases hd : v.is_dummy
      · simp only [hd, if_true] at h
        cases h
        exact ⟨rfl, by simp⟩
      · simp only [hd, if_false, Bool.false_eq_true] at h
        cases h
    | seq a b iha ihb =>
      intro s xs s' h
      simp only [runOp] at h
      cases ha : runOp false a s with
      | error e => simp only [ha] at h; cases h
      | ok p =>
        obtain ⟨xs₁, s₁⟩ := p
        simp only [ha] at h
        cases hb : runOp false b s₁ with
        | error e => simp only [hb] at h; cases h
        | ok q =>
          obtain ⟨xs₂, s₂⟩ := q
          simp only [hb] at h
          cases h
          obtain ⟨e1, m1⟩ := iha s _ _ ha
          obtain ⟨e2, m2⟩ := ihb s₁ _ _ hb
          subst e1
          subst e2
          refine ⟨rfl, ?_⟩
          intro i hi
          rcases List.mem_append.mp hi with hi | hi
          · exact m1 i hi
          · exact m2 i hi
    | taskOp key body ihb =>
      intro s xs s' h
      simp only [runOp, Bool.false_eq_true, if_false] at h
      cases hb : runOp false body s with
      | error e => simp only [hb] at h; cases h
      | ok p =>
        obtain ⟨xs₀, s₂⟩ := p
        simp only [hb] at h
        cases h
        obtain ⟨e1, m1⟩ := ihb s _ _ hb
        subst e1
        refine ⟨rfl, ?_⟩
        intro i hi
        rcases List.mem_append.mp hi with hi | hi
        · exact m1 i hi
        · simp only [List.mem_singleton] at hi
          exact hi
    | ignoreOp body ihb =>
      intro s xs s' h
      simp only [runOp, Bool.false_eq_true, if_false] at h
      cases hb : runOp false body s with
      | error e => simp only [hb] at h; cases h
      | ok p =>
        obtain ⟨xs₀, s₂⟩ := p
        simp only [hb] at h
        cases h
        exact ihb s _ _ hb
  · intro key body s
    simp only [with_task_internal, Bool.false_eq_true, if_false]
    cases hb : body s with
    | error e => simp [Except.map]
    | ok p => simp [Except.map]

/-- Witness for C8: a disabled anonymous task around an empty body returns
the dummy index and leaves the fresh state untouched. -/
theorem c8_disabled_fast_path_witness :
    runOp false (.taskOp none .skip) (DepGraphNodes.new (N := Nat)) =
      .ok ([DepNodeIndex.dummy], DepGraphNodes.new) ∧
    DepGraphNodes.new (N := Nat) = DepGraphNodes.new :=
  ⟨rfl,
    ((c8_disabled_fast_path (N := Nat) (R := Unit)).1 (.taskOp none .skip)
        DepGraphNodes.new [DepNodeIndex.dummy] DepGraphNodes.new rfl).1⟩

/-- C9: a read on an enabled graph is attributed only to the innermost
(topmost) frame — every outer frame, and every other component of the state,
is untouched; with no active frame `read` changes nothing; and `with_ignore`
around any program of API calls restores the enclosing task stack exactly
(reads inside went to the pushed-and-discarded frame) while handing back the
body's result unchanged. -/
theorem c9_read_innermost_and_ignore :
    (∀ (v : DepNodeIndex) (s : DepGraphNodes Nat),
        s.task_stack = [] → s.read v = s) ∧
    (∀ (v : DepNodeIndex) (s : DepGraphNodes Nat) (st : List TaskStackEntry)
        (entry : TaskStackEntry), s.task_stack = st ++ [entry] →
        s.read v = { s with task_stack := st ++ [entry.addRead v] }) ∧
    (∀ (prog : GraphOp Nat) (s : DepGraphNodes Nat) (xs : List DepNodeIndex)
        (s' : DepGraphNodes Nat),
        with_ignore true (runOp true prog) s = .ok (xs, s') →
        s'.task_stack = s.task_stack ∧
        (runOp true prog s.push_task).map (fun p => p.1) = .ok xs) := by
  refine ⟨?_, ?_, ?_⟩
  · intro v s h
    simp [DepGraphNodes.read, h]
  · intro v s st entry h
    have hl : s.task_stack.getLast? = some entry := by
      rw [h]
      exact List.getLast?_concat st
    simp [DepGraphNodes.read, hl, h]
  · intro prog s xs s' h
    simp only [with_ignore, if_true] at h
    cases hb : runOp true prog s.push_task with
    | error e => simp only [hb] at h; cases h
    | ok p =>
      obtain ⟨xs₀, s₂⟩ := p
      simp only [hb] at h
      cases hp : s₂.pop_task none with
      | error e => simp only [hp] at h; cases h
      | ok q =>
        obtain ⟨i, s₃⟩ := q
        simp only [hp] at h
        cases h
        obtain ⟨lB, dB⟩ := runOp_stack prog s.push_task _ _ hb
        have h3 := pop_task_stack s₂ none i s' hp
        rw [push_task_stack] at dB
        constructor
        · rw [h3, dB]
          simp
        · rfl

/-- Witness for C9: reading on a graph with an empty task stack is a no-op. -/
theorem c9_read_innermost_and_ignore_witness :
    (DepGraphNodes.new (N := Nat)).task_stack = [] ∧
    (DepGraphNodes.new (N := Nat)).read ⟨0⟩ = DepGraphNodes.new :=
  ⟨rfl, c9_read_innermost_and_ignore.1 ⟨0⟩ DepGraphNodes.new rfl⟩

/-- C10: completing a nested task (`with_task` or `with_anon_task`, both
`with_task_internal`) inside an outer task leaves the whole enclosing task
stack — in particular the parent frame's predecessor list — exactly as it
was before the nested call: the child's index is not implicitly recorded as
a predecessor of the parent; it only enters the parent's list if the caller
passes it to `read` afterwards. -/
theorem c10_no_implicit_parent_edge {N : Type} [DecidableEq N] (key : Option N)
    (prog : GraphOp N) (s : DepGraphNodes N) (r : List DepNodeIndex)
    (i : DepNodeIndex) (s' : DepGraphNodes N)
    (h : with_task_internal true key (runOp true prog) s = .ok ((r, i), s')) :
    s'.task_stack = s.task_stack := by
  simp only [with_task_internal, if_true] at h
  cases hb : runOp true prog s.push_task with
  | error e => simp only [hb] at h; cases h
  | ok p =>
    obtain ⟨xs₀, s₂⟩ := p
    simp only [hb] at h
    cases hp : s₂.pop_task key with
    | error e => simp only [hp] at h; cases h
    | ok q =>
      obtain ⟨j, s₃⟩ := q
      simp only [hp] at h
      cases h
      obtain ⟨lB, dB⟩ := runOp_stack prog s.push_task _ _ hb
      have h3 := pop_task_stack s₂ key i s' hp
      rw [push_task_stack] at dB
      rw [h3, dB]
      simp

/-- Witness for C10: an anonymous nested task with an empty body, run inside
one active outer frame; the outer stack is unchanged afterwards. -/
theorem c10_no_implicit_parent_edge_witness :
    with_task_internal true none (runOp true .skip)
        (DepGraphNodes.new (N := Nat)).push_task =
      .ok (([], ⟨0⟩),
        { node_data := [⟨none, []⟩], predecessors := [[]],
          task_stack := [⟨[], []⟩], anon_node_map := [], named_node_map := [] }) ∧
    ({ node_data := [⟨none, []⟩], predecessors := [[]],
       task_stack := [⟨[], []⟩], anon_node_map := [],
       named_node_map := [] } : DepGraphNodes Nat).task_stack =
      (DepGraphNodes.new (N := Nat)).push_task.task_stack :=
  ⟨rfl,
    c10_no_implicit_parent_edge none .skip DepGraphNodes.new.push_task [] ⟨0⟩
      { node_data := [⟨none, []⟩], predecessors := [[]],
        task_stack := [⟨[], []⟩], anon_node_map := [], named_node_map := [] } rfl⟩
